import Mathlib

/-!
Verification of the Cloak client against its specification.

The development is a shallow embedding of two source files:

* `internal/multiplex/session.go` — the `Session` type and its operations
  (`MakeSession`, `OpenStream`, `AcceptStream`, `addStream`, `Close`).
  Go machine integers (`uint32`) are embedded as `Nat` with explicit
  `% 2 ^ 32` where Go arithmetic wraps.  Go channels are embedded by their
  contents plus a channel status (`nil` / open / closed), and the Go `select`
  statement by an explicit choice argument covering its pseudo-random pick
  when several cases are ready.  A Go run-time panic is a distinguished
  outcome of the embedded operation.

* the client configuration file (`State`, `InitState`, `ssvToJson`,
  `State.ParseConfig`).  Go strings are embedded as `List Char`; the
  standard-library pieces the source calls (`strings.Replace`,
  `strings.Split`, `strings.SplitN`, `strings.Contains`,
  `base64.StdEncoding.DecodeString`, and `encoding/json.Unmarshal`
  restricted to the flat escape-free objects this program feeds it)
  are embedded executably next to it.  `ioutil.ReadFile` is embedded as an
  explicit file-system argument `String-path → Option contents`.
-/

namespace Cloak

/-! ## Multiplex session: data model (session.go lines 11-48) -/

/-- Modelled from the spec (§3, §4.C): the `Stream` record lives in
`stream.go`, which is not part of the sources; at `Session` level the only
observable attribute of a fresh stream is its id, so the model keeps
exactly that. -/
structure Stream where
  id : Nat
deriving DecidableEq

/-- Modelled from the spec (§4.C): `makeStream` (from `stream.go`, not in
the sources) constructs a fresh `Stream` with the given id. -/
def makeStream (i : Nat) : Stream := ⟨i⟩

/-- Modelled from the spec (§3): a `Frame` carries a stream id, a sequence
number, a closing flag and a payload.  `frame.go` is not in the sources;
the session-level claims only need the type in order to state that
`OpenStream` emits no frame. -/
structure Frame where
  streamID : Nat
  seq : Nat
  closingFlag : Nat
  payload : List Nat
deriving DecidableEq

/-- Status of a Go channel: the zero value `nil`, an open channel, or a
closed channel.  Receiving from a `nil` channel blocks forever (in a
`select`, the case is never ready); closing a `nil` or closed channel
panics. -/
inductive DieChan where
  | nilChan
  | opened
  | closedChan
deriving DecidableEq

/-- `acceptBacklog` (session.go line 15): capacity of the accept channel. -/
def acceptBacklog : Nat := 1024

/-- `closeBacklog` (session.go line 17): capacity of the close-queue channel. -/
def closeBacklog : Nat := 512

/-- Wrap modulus of Go `uint32` arithmetic. -/
def u32Mod : Nat := 2 ^ 32

/-- `Session` (session.go lines 20-48).  The obfuscation hooks
(`obfs`, `deobfs`, `obfsedReader`) and the switchboard pointer are opaque
values installed by `MakeSession` and never reassigned by any operation of
`session.go`, so they are omitted from the record; every remaining field
is embedded.  `streams` is the Go map embedded as an association list,
`acceptQueue` and `closeQ` are the contents of the two buffered channels,
`die` is the channel status of `die`, and `closing` the guarded flag. -/
structure Session where
  id : Int
  nextStreamID : Nat
  streams : List (Nat × Stream)
  acceptQueue : List Stream
  closeQ : List Nat
  die : DieChan
  closing : Bool
deriving DecidableEq

/-- `MakeSession` (session.go lines 51-64).  The struct literal sets
`nextStreamID`, `streams`, `acceptCh` and `closeQCh`; every other field —
in particular `die` — keeps its Go zero value, so `die` is a `nil`
channel and `closing` is `false`. -/
def makeSession (i : Int) : Session :=
  { id := i
    nextStreamID := 1
    streams := []
    acceptQueue := []
    closeQ := []
    die := DieChan.nilChan
    closing := false }

/-- Go map insert `m[k] = v`: replaces the binding if the key is present,
otherwise adds it. -/
def insertAssoc (m : List (Nat × Stream)) (k : Nat) (v : Stream) : List (Nat × Stream) :=
  match m with
  | [] => [(k, v)]
  | (k2, v2) :: rest =>
    if k2 = k then (k, v) :: rest else (k2, v2) :: insertAssoc rest k v

/-- Go map lookup `m[k]`. -/
def lookupAssoc (m : List (Nat × Stream)) (k : Nat) : Option Stream :=
  match m with
  | [] => none
  | (k2, v2) :: rest => if k2 = k then some v2 else lookupAssoc rest k

/-! ## Multiplex session: operations -/

/-- `Session.OpenStream` (session.go lines 70-78).
`id := atomic.AddUint32(&sesh.nextStreamID, 1)` returns the incremented
value (wrapping `uint32` arithmetic), then `id -= 1` (also wrapping); the
stream is built and inserted into the map, and `(stream, nil)` is
returned.  The body contains no frame construction and no channel send,
so the emitted-frame list of the embedding is empty. -/
def openStream (s : Session) : Except String Stream × Session × List Frame :=
  let added := (s.nextStreamID + 1) % u32Mod
  let newId := (added + (u32Mod - 1)) % u32Mod
  let st := makeStream newId
  (Except.ok st,
   { s with nextStreamID := added, streams := insertAssoc s.streams newId st },
   [])

/-- Result of `Session.AcceptStream`: an error return, a stream return
(with the session state after the channel receive), or blocking. -/
inductive AcceptRes where
  | broken
  | stream (st : Stream) (s : Session)
  | blocks
deriving DecidableEq

/-- `Session.AcceptStream` (session.go lines 80-88): a two-case `select`
on `<-sesh.die` and `<-sesh.acceptCh`.  The die case is ready iff the
channel is closed (a `nil` or open channel from which nobody sends never
fires); the accept case is ready iff the buffered channel is non-empty.
When both are ready Go picks pseudo-randomly: the choice is the explicit
argument `pickDie`.  When neither is ready the `select` blocks. -/
def acceptStream (s : Session) (pickDie : Bool) : AcceptRes :=
  match s.acceptQueue with
  | [] => if s.die = DieChan.closedChan then AcceptRes.broken else AcceptRes.blocks
  | st :: rest =>
    if s.die = DieChan.closedChan ∧ pickDie then AcceptRes.broken
    else AcceptRes.stream st { s with acceptQueue := rest }

/-- Result of `Session.addStream`: either the enqueue onto `acceptCh`
succeeded, or the channel was full and the send blocks (the stream is
already in the table at that point). -/
inductive AddRes where
  | ok (st : Stream) (s : Session)
  | blockedEnqueue (st : Stream) (s : Session)
deriving DecidableEq

/-- `Session.addStream` (session.go lines 110-118): build the stream,
insert it into the map under the table lock, then `sesh.acceptCh <- stream`.
The send on the buffered channel completes iff fewer than `acceptBacklog`
streams are pending; otherwise it blocks (there is no `select`/`default`
and no drop path in the body). -/
def addStream (s : Session) (i : Nat) : AddRes :=
  let st := makeStream i
  let s2 : Session := { s with streams := insertAssoc s.streams i st }
  if s2.acceptQueue.length < acceptBacklog then
    AddRes.ok st { s2 with acceptQueue := s2.acceptQueue ++ [st] }
  else
    AddRes.blockedEnqueue st s2

/-- Outcome of `Session.Close`. -/
inductive CloseOutcome where
  | ok
  | repeatClose
  | panicked
deriving DecidableEq

/-- Result of `Session.Close`: outcome, session state at return (or at the
panic), and the streams on which `closeNoDelMap` was invoked (each on a
detached goroutine; `closeNoDelMap` itself lives in `stream.go`). -/
structure CloseRes where
  outcome : CloseOutcome
  session : Session
  swept : List Stream
deriving DecidableEq

/-- `Session.Close` (session.go lines 120-143): under `closingM`, if
`closing` is already set return the repeat-close error; otherwise set
`closing`, `close(sesh.die)` — which panics unless `die` is an open
channel — then sweep the stream table, spawning `closeNoDelMap` for every
entry and deleting it. -/
def sessionClose (s : Session) : CloseRes :=
  if s.closing then
    { outcome := CloseOutcome.repeatClose, session := s, swept := [] }
  else
    let s2 : Session := { s with closing := true }
    match s2.die with
    | DieChan.opened =>
      { outcome := CloseOutcome.ok
        session := { s2 with die := DieChan.closedChan, streams := [] }
        swept := s2.streams.map Prod.snd }
    | _ =>
      { outcome := CloseOutcome.panicked, session := s2, swept := [] }

/-! ## Session-layer theorems -/

/-- Ids returned by `n` successive `OpenStream` calls starting from
session state `s`. -/
def idsFrom (s : Session) : Nat → List Nat
  | 0 => []
  | n + 1 =>
    let r := openStream s
    (match r.1 with
     | Except.ok st => st.id
     | Except.error _ => 0) :: idsFrom r.2.1 n

theorem openStream_id (s : Session) (h : s.nextStreamID < u32Mod) :
    ((openStream s).2.1.nextStreamID = (s.nextStreamID + 1) % u32Mod) ∧
    (openStream s).1 = Except.ok (makeStream s.nextStreamID) := by
  refine ⟨rfl, ?_⟩
  show Except.ok (makeStream (((s.nextStreamID + 1) % u32Mod + (u32Mod - 1)) % u32Mod)) = _
  have h1 : ((s.nextStreamID + 1) % u32Mod + (u32Mod - 1)) % u32Mod
      = (s.nextStreamID + 1 + (u32Mod - 1)) % u32Mod := Nat.mod_add_mod _ _ _
  have h2 : s.nextStreamID + 1 + (u32Mod - 1) = s.nextStreamID + u32Mod := by
    have : 1 ≤ u32Mod := by norm_num [u32Mod]
    omega
  rw [h1, h2, Nat.add_mod_right, Nat.mod_eq_of_lt h]

theorem idsFrom_formula (n : Nat) : ∀ s : Session, s.nextStreamID < u32Mod →
    idsFrom s n = (List.range n).map (fun j => (s.nextStreamID + j) % u32Mod) := by
  induction n with
  | zero => intro s _; rfl
  | succ k ih =>
    intro s h
    have hopen := openStream_id s h
    have hlt : (openStream s).2.1.nextStreamID < u32Mod := by
      rw [hopen.1]; exact Nat.mod_lt _ (by norm_num [u32Mod])
    have hrec := ih (openStream s).2.1 hlt
    show (match (openStream s).1 with
          | Except.ok st => st.id
          | Except.error _ => 0) :: idsFrom (openStream s).2.1 k = _
    rw [hopen.2, hrec, hopen.1, List.range_succ_eq_map, List.map_cons, List.map_map]
    have hhead : makeStream s.nextStreamID = Stream.mk s.nextStreamID := rfl
    refine congrArg₂ List.cons ?_ ?_
    · show s.nextStreamID = (s.nextStreamID + 0) % u32Mod
      rw [Nat.add_zero, Nat.mod_eq_of_lt h]
    · refine List.map_congr_left ?_
      intro j _
      show ((s.nextStreamID + 1) % u32Mod + j) % u32Mod = (s.nextStreamID + (j + 1)) % u32Mod
      rw [Nat.mod_add_mod]
      congr 1
      omega

/-- The id that `OpenStream` returns from session state `s`: the wrapped
increment followed by the wrapped decrement of the source. -/
def openId (s : Session) : Nat :=
  ((s.nextStreamID + 1) % u32Mod + (u32Mod - 1)) % u32Mod

theorem lookupAssoc_insertAssoc_self (m : List (Nat × Stream)) (k : Nat) (v : Stream) :
    lookupAssoc (insertAssoc m k v) k = some v := by
  induction m with
  | nil => simp [insertAssoc, lookupAssoc]
  | cons p rest ih =>
    obtain ⟨k2, v2⟩ := p
    by_cases hk : k2 = k
    · simp [insertAssoc, hk, lookupAssoc]
    · simp [insertAssoc, hk, lookupAssoc, ih]

theorem lookupAssoc_insertAssoc_ne (m : List (Nat × Stream)) (k k2 : Nat) (v : Stream)
    (h : k2 ≠ k) : lookupAssoc (insertAssoc m k v) k2 = lookupAssoc m k2 := by
  have h2 : ¬ (k = k2) := fun e => h e.symm
  induction m with
  | nil => simp [insertAssoc, lookupAssoc, h2]
  | cons p rest ih =>
    obtain ⟨k3, v3⟩ := p
    by_cases hk : k3 = k
    · subst hk
      simp [insertAssoc, lookupAssoc, h2]
    · simp [insertAssoc, hk, lookupAssoc, ih]

/-- C1: the claim says the first `Session.Close` returns without error
after setting `closing`, raising `die` and sweeping the stream table.  On
the code, `MakeSession` never initialises `die`, so it is a `nil` channel,
and the first `Close` sets `closing` and then panics in `close(sesh.die)`:
it neither returns without error nor sweeps the table. -/
theorem c1_close_fresh_session_panics :
    (makeSession 0).die = DieChan.nilChan ∧
    (makeSession 0).closing = false ∧
    sessionClose (makeSession 0) =
      { outcome := CloseOutcome.panicked
        session := { makeSession 0 with closing := true }
        swept := [] } :=
  ⟨rfl, rfl, rfl⟩

/-- C2: the claim says that once `die` has been raised by `Session.Close`,
`AcceptStream` returns the broken-session error.  On the code `die` is the
`nil` channel (`MakeSession` never initialises it): a `nil` select case is
never ready, so `AcceptStream` can never return the broken-session error,
and `Session.Close` can never raise `die` (it panics instead), so the
claim's trigger is unreachable: with an empty accept queue `AcceptStream`
blocks forever. -/
theorem c2_acceptStream_never_broken :
    (makeSession 0).die = DieChan.nilChan ∧
    (∀ (s : Session) (pick : Bool), s.die = DieChan.nilChan →
        acceptStream s pick ≠ AcceptRes.broken) ∧
    (∀ s : Session, s.die = DieChan.nilChan →
        (sessionClose s).outcome ≠ CloseOutcome.ok ∧
        (sessionClose s).session.die = DieChan.nilChan) ∧
    acceptStream (makeSession 0) true = AcceptRes.blocks := by
  refine ⟨rfl, ?_, ?_, rfl⟩
  · intro s pick h
    cases hq : s.acceptQueue with
    | nil => simp [acceptStream, hq, h]
    | cons st rest => simp [acceptStream, hq, h]
  · intro s h
    by_cases hc : s.closing
    · simp [sessionClose, hc, h]
    · simp [sessionClose, hc, h]

theorem c2_acceptStream_never_broken_witness :
    acceptStream (makeSession 5) false ≠ AcceptRes.broken :=
  c2_acceptStream_never_broken.2.1 (makeSession 5) false rfl

/-- C3 (counterexample): the claim quantifies over every `n`, but
`nextStreamID` is a Go `uint32`, so at the 2^32-th `OpenStream` call the
returned id wraps to `0` instead of `2^32`: the id list of `2^32` calls
on a fresh session is not `[1, …, 2^32]`. -/
theorem c3_counterexample :
    idsFrom (makeSession 0) u32Mod ≠ (List.range u32Mod).map (fun j => j + 1) := by
  intro hEq
  have hform := idsFrom_formula u32Mod (makeSession 0) (by norm_num [makeSession, u32Mod])
  rw [hform] at hEq
  simp only [makeSession] at hEq
  have helem := congrArg (fun l => l[u32Mod - 1]?) hEq
  simp only [List.getElem?_map,
    List.getElem?_range (show u32Mod - 1 < u32Mod by norm_num [u32Mod]),
    Option.map_some'] at helem
  have hval : (1 + (u32Mod - 1)) % u32Mod = u32Mod - 1 + 1 := Option.some.inj helem
  rw [show 1 + (u32Mod - 1) = u32Mod by norm_num [u32Mod], Nat.mod_self] at hval
  norm_num [u32Mod] at hval

/-- C3 (amended): for every `n` below `2^32` (before the `uint32` counter
wraps), `n` successive `OpenStream` calls on a fresh session return
exactly the ids `1, 2, …, n`; in particular they are strictly monotonic
and pairwise distinct. -/
theorem c3_openStream_ids (n : Nat) (h : n < u32Mod) :
    idsFrom (makeSession 0) n = (List.range n).map (fun j => j + 1) := by
  have hform := idsFrom_formula n (makeSession 0) (by norm_num [makeSession, u32Mod])
  rw [hform]
  simp only [makeSession]
  refine List.map_congr_left ?_
  intro j hj
  have hj2 : j < n := List.mem_range.mp hj
  have hlt : 1 + j < u32Mod := by omega
  rw [Nat.mod_eq_of_lt hlt]
  omega

theorem c3_openStream_ids_witness : idsFrom (makeSession 0) 3 = [1, 2, 3] := by
  have h := c3_openStream_ids 3 (by norm_num [u32Mod])
  simpa using h

/-- C6 (counterexample): the claim says a stream arriving while the accept
queue already holds 1024 entries is dropped with a log message and the
enqueue never blocks; on the code `addStream` does a plain send on the
full buffered channel, which blocks — the stream is inserted into the
table and is not dropped. -/
theorem c6_counterexample :
    addStream { makeSession 0 with acceptQueue := List.replicate 1024 (makeStream 0) } 7 =
      AddRes.blockedEnqueue (makeStream 7)
        { makeSession 0 with
            acceptQueue := List.replicate 1024 (makeStream 0)
            streams := insertAssoc (makeSession 0).streams 7 (makeStream 7) } := by
  have h : ¬ (({ makeSession 0 with
      acceptQueue := List.replicate 1024 (makeStream 0)
      streams := insertAssoc (makeSession 0).streams 7 (makeStream 7) } : Session).acceptQueue.length
        < acceptBacklog) := by
    show ¬ ((List.replicate 1024 (makeStream 0)).length < acceptBacklog)
    rw [List.length_replicate]
    norm_num [acceptBacklog]
  unfold addStream
  rw [if_neg h]

/-- C6 (amended): when a frame arrives for an unknown stream id,
`addStream` inserts the new stream into the table and then sends it on the
accept channel; the send completes iff fewer than 1024 streams are
pending, and with 1024 pending it blocks the inbound routing path — the
stream is not dropped and no drop is logged. -/
theorem c6_addStream_enqueue (s : Session) (i : Nat) :
    (s.acceptQueue.length < acceptBacklog →
      addStream s i = AddRes.ok (makeStream i)
        { s with streams := insertAssoc s.streams i (makeStream i)
                 acceptQueue := s.acceptQueue ++ [makeStream i] }) ∧
    (acceptBacklog ≤ s.acceptQueue.length →
      addStream s i = AddRes.blockedEnqueue (makeStream i)
        { s with streams := insertAssoc s.streams i (makeStream i) }) := by
  constructor
  · intro h
    simp [addStream, h]
  · intro h
    simp [addStream, Nat.not_lt.mpr h]

theorem c6_addStream_enqueue_witness :
    addStream { makeSession 0 with acceptQueue := List.replicate 1024 (makeStream 0) } 9 =
      AddRes.blockedEnqueue (makeStream 9)
        { makeSession 0 with
            acceptQueue := List.replicate 1024 (makeStream 0)
            streams := insertAssoc (makeSession 0).streams 9 (makeStream 9) } :=
  (c6_addStream_enqueue _ 9).2 (by
    show acceptBacklog ≤ (List.replicate 1024 (makeStream 0)).length
    rw [List.length_replicate]
    norm_num [acceptBacklog])

/-- C8: `OpenStream` never returns an error, emits no frame, and changes
exactly two session fields: the stream table gains the returned stream
under the new id (all other keys unchanged) and the next-stream-id counter
is incremented by one (wrapping `uint32` arithmetic; below the wrap, a
plain increment). -/
theorem c8_openStream_effect (s : Session) :
    (openStream s).1 = Except.ok (makeStream (openId s)) ∧
    (openStream s).2.2 = ([] : List Frame) ∧
    (openStream s).2.1 =
      { s with nextStreamID := (s.nextStreamID + 1) % u32Mod
               streams := insertAssoc s.streams (openId s) (makeStream (openId s)) } ∧
    lookupAssoc (openStream s).2.1.streams (openId s) = some (makeStream (openId s)) ∧
    (∀ k, k ≠ openId s →
        lookupAssoc (openStream s).2.1.streams k = lookupAssoc s.streams k) ∧
    (s.nextStreamID < u32Mod → openId s = s.nextStreamID) ∧
    (s.nextStreamID + 1 < u32Mod →
        (openStream s).2.1.nextStreamID = s.nextStreamID + 1) := by
  refine ⟨rfl, rfl, rfl, lookupAssoc_insertAssoc_self _ _ _, ?_, ?_, ?_⟩
  · intro k hk
    exact lookupAssoc_insertAssoc_ne _ _ _ _ hk
  · intro h
    have := (openStream_id s h).2
    simpa [openStream, openId, makeStream, Stream.mk.injEq] using this
  · intro h
    show (s.nextStreamID + 1) % u32Mod = s.nextStreamID + 1
    exact Nat.mod_eq_of_lt h

theorem c8_openStream_effect_witness :
    openId (makeSession 0) = 1 ∧ (openStream (makeSession 0)).2.1.nextStreamID = 2 :=
  ⟨(c8_openStream_effect (makeSession 0)).2.2.2.2.2.1 (by norm_num [makeSession, u32Mod]),
   (c8_openStream_effect (makeSession 0)).2.2.2.2.2.2 (by norm_num [makeSession, u32Mod])⟩

/-! ## Client configuration: string utilities

Go strings are embedded as `List Char`.  The characters backslash, double
quote and the two braces are written via `Char.ofNat` throughout. -/

/-- Backslash. -/
def bsC : Char := Char.ofNat 92

/-- Double quote. -/
def qC : Char := Char.ofNat 34

/-- Opening curly brace. -/
def obC : Char := Char.ofNat 123

/-- Closing curly brace. -/
def cbC : Char := Char.ofNat 125

/-- `strings.Replace(s, old, new, -1)` for a two-character pattern
`old = [o1, o2]` (all three patterns of `unescape` have two characters):
leftmost non-overlapping replacement, scanning left to right and never
rescanning the replacement text. -/
def replaceAll2 (o1 o2 : Char) (new : List Char) : List Char → List Char
  | [] => []
  | [c] => [c]
  | c1 :: c2 :: rest =>
    if c1 = o1 ∧ c2 = o2 then new ++ replaceAll2 o1 o2 new rest
    else c1 :: replaceAll2 o1 o2 new (c2 :: rest)

/-- The `unescape` closure of `ssvToJson`: three whole-string
`strings.Replace` passes, in source order — first backslash-backslash to
backslash, then backslash-equals to equals, then backslash-semicolon to
semicolon. -/
def unescape (s : List Char) : List Char :=
  replaceAll2 bsC ';' [';'] (replaceAll2 bsC '=' ['='] (replaceAll2 bsC bsC [bsC] s))

/-- `strings.Split(s, ";")`. -/
def splitOnC (sep : Char) : List Char → List (List Char)
  | [] => [[]]
  | c :: rest =>
    if c = sep then [] :: splitOnC sep rest
    else
      match splitOnC sep rest with
      | [] => [[c]]
      | seg :: segs => (c :: seg) :: segs

/-- `strings.SplitN(ln, "=", 2)` followed by taking elements 0 and 1:
`none` when the separator is absent, in which case the Go source indexes
`sp[1]` out of range and panics. -/
def splitN2 (sep : Char) : List Char → Option (List Char × List Char)
  | [] => none
  | c :: rest =>
    if c = sep then some ([], rest)
    else
      match splitN2 sep rest with
      | none => none
      | some (k, v) => some (c :: k, v)

/-- One iteration of the `ssvToJson` loop body: split the line at the
first `=`, emit the key quoted and the value quoted — except for the keys
`TicketTimeHint` and `NumConn`, whose values are emitted unquoted — each
entry followed by a comma.  `none` is the source's panic on a line with
no `=`. -/
def ssvSegJson (ln : List Char) : Option (List Char) :=
  match splitN2 '=' ln with
  | none => none
  | some (key, value) =>
    if key = "TicketTimeHint".data ∨ key = "NumConn".data then
      some (qC :: (key ++ (qC :: ':' :: (value ++ [',']))))
    else
      some (qC :: (key ++ (qC :: ':' :: qC :: (value ++ [qC, ',']))))

/-- The `ssvToJson` loop: process lines in order, stopping at the first
empty line (the source's `break`), concatenating the emitted entries. -/
def ssvLoop : List (List Char) → Option (List Char)
  | [] => some []
  | ln :: rest =>
    if ln = [] then some []
    else
      match ssvSegJson ln, ssvLoop rest with
      | some a, some b => some (a ++ b)
      | _, _ => none

/-- `ssvToJson` (client config source, lines 64-91): unescape the whole
input, split it on `;`, convert each line to a JSON member, then replace
the trailing comma with the closing brace. -/
def ssvToJson (ssv : List Char) : Option (List Char) :=
  match ssvLoop (splitOnC ';' (unescape ssv)) with
  | none => none
  | some body => some ((obC :: body).dropLast ++ [cbC])

/-! ## Client configuration: library collaborators

`encoding/json.Unmarshal` into `rawConfig` is embedded for the fragment
this program feeds it: a flat object without surrounding whitespace whose
members are escape-free strings or decimal integers (exactly what the
configuration file format of §6 and `ssvToJson` produce).  Unknown keys
are ignored, later duplicates win, absent keys keep the Go zero value,
and a type mismatch on a known key is an unmarshalling error. -/

/-- A flat JSON value: a string or an integer. -/
inductive JVal where
  | jstr (s : List Char)
  | jnum (n : Int)
deriving DecidableEq

/-- Parse the remainder of a JSON string literal after its opening quote
(escape-free fragment): the characters up to the closing quote. -/
def parseJString : List Char → Option (List Char × List Char)
  | [] => none
  | c :: rest =>
    if c = qC then some ([], rest)
    else
      match parseJString rest with
      | none => none
      | some (str, rem) => some (c :: str, rem)

def takeDigits (s : List Char) : List Char × List Char :=
  match s with
  | [] => ([], [])
  | c :: rest =>
    if '0' ≤ c ∧ c ≤ '9' then
      let (ds, rem) := takeDigits rest
      (c :: ds, rem)
    else ([], s)

def digitsToNat (ds : List Char) : Nat :=
  ds.foldl (fun a c => a * 10 + (c.toNat - 48)) 0

/-- Parse a JSON integer: an optional minus sign followed by at least one
digit. -/
def parseJNum (s : List Char) : Option (Int × List Char) :=
  match s with
  | [] => none
  | c :: rest =>
    if c = '-' then
      let (ds, rem) := takeDigits rest
      if ds = [] then none else some (-(digitsToNat ds : Int), rem)
    else
      let (ds, rem) := takeDigits s
      if ds = [] then none else some ((digitsToNat ds : Int), rem)

def parseJVal (s : List Char) : Option (JVal × List Char) :=
  match s with
  | [] => none
  | c :: rest =>
    if c = qC then
      match parseJString rest with
      | none => none
      | some (str, rem) => some (JVal.jstr str, rem)
    else
      match parseJNum s with
      | none => none
      | some (n, rem) => some (JVal.jnum n, rem)

/-- Parse the members of a flat JSON object after the opening brace,
consuming the closing brace and requiring the input to end there. -/
def parseMembers : Nat → List Char → Option (List (List Char × JVal))
  | 0, _ => none
  | fuel + 1, s =>
    match s with
    | [] => none
    | c :: rest =>
      if c = qC then
        match parseJString rest with
        | none => none
        | some (key, rem1) =>
          match rem1 with
          | ':' :: rem2 =>
            (match parseJVal rem2 with
             | none => none
             | some (v, rem3) =>
               match rem3 with
               | [c2] =>
                 if c2 = cbC then some [(key, v)] else none
               | ',' :: rem4 =>
                 (match parseMembers fuel rem4 with
                  | none => none
                  | some ps => some ((key, v) :: ps))
               | _ => none)
          | _ => none
      else none

/-- Parse a flat JSON object into its member list. -/
def jsonParseFlat (s : List Char) : Option (List (List Char × JVal)) :=
  match s with
  | [] => none
  | c :: rest =>
    if c = obC then
      if rest = [cbC] then some []
      else parseMembers rest.length rest
    else none

/-- `rawConfig` (client config source, lines 16-25), with Go zero values
as defaults for absent keys. -/
structure rawConfig where
  ServerName : List Char := []
  ProxyMethod : List Char := []
  EncryptionMethod : List Char := []
  UID : List Char := []
  PublicKey : List Char := []
  TicketTimeHint : Int := 0
  BrowserSig : List Char := []
  NumConn : Int := 0
deriving DecidableEq

/-- The Go zero value of `rawConfig`. -/
def rawConfigZero : rawConfig := {}

/-- Apply one JSON member to a `rawConfig` under Go's `encoding/json`
field matching: known keys set the field (type mismatch is an error),
unknown keys are ignored. -/
def applyPair (r : rawConfig) (p : List Char × JVal) : Option rawConfig :=
  if p.1 = "ServerName".data then
    match p.2 with
    | JVal.jstr s => some { r with ServerName := s }
    | _ => none
  else if p.1 = "ProxyMethod".data then
    match p.2 with
    | JVal.jstr s => some { r with ProxyMethod := s }
    | _ => none
  else if p.1 = "EncryptionMethod".data then
    match p.2 with
    | JVal.jstr s => some { r with EncryptionMethod := s }
    | _ => none
  else if p.1 = "UID".data then
    match p.2 with
    | JVal.jstr s => some { r with UID := s }
    | _ => none
  else if p.1 = "PublicKey".data then
    match p.2 with
    | JVal.jstr s => some { r with PublicKey := s }
    | _ => none
  else if p.1 = "TicketTimeHint".data then
    match p.2 with
    | JVal.jnum n => some { r with TicketTimeHint := n }
    | _ => none
  else if p.1 = "BrowserSig".data then
    match p.2 with
    | JVal.jstr s => some { r with BrowserSig := s }
    | _ => none
  else if p.1 = "NumConn".data then
    match p.2 with
    | JVal.jnum n => some { r with NumConn := n }
    | _ => none
  else some r

def foldPairs : rawConfig → List (List Char × JVal) → Option rawConfig
  | r, [] => some r
  | r, p :: ps =>
    match applyPair r p with
    | none => none
    | some r2 => foldPairs r2 ps

/-- `json.Unmarshal(content, &preParse)` on the flat fragment. -/
def jsonUnmarshal (s : List Char) : Option rawConfig :=
  match jsonParseFlat s with
  | none => none
  | some ps => foldPairs rawConfigZero ps

/-- Base64 value of one alphabet character
(`base64.StdEncoding`: A-Z a-z 0-9 + /). -/
def b64Val (c : Char) : Option Nat :=
  if 'A' ≤ c ∧ c ≤ 'Z' then some (c.toNat - 65)
  else if 'a' ≤ c ∧ c ≤ 'z' then some (c.toNat - 97 + 26)
  else if '0' ≤ c ∧ c ≤ '9' then some (c.toNat - 48 + 52)
  else if c = '+' then some 62
  else if c = '/' then some 63
  else none

/-- Decode base64 four characters at a time: `=` padding only in the last
quad, invalid characters and lengths not a multiple of four rejected,
non-zero trailing bits ignored (Go's non-strict default). -/
def b64Quads : List Char → Option (List Nat)
  | [] => some []
  | a :: b :: c :: d :: rest =>
    (match b64Val a, b64Val b with
     | some va, some vb =>
       if c = '=' then
         if d = '=' ∧ rest = [] then some [va * 4 + vb / 16] else none
       else
         (match b64Val c with
          | some vc =>
            if d = '=' then
              if rest = [] then some [va * 4 + vb / 16, vb % 16 * 16 + vc / 4] else none
            else
              (match b64Val d, b64Quads rest with
               | some vd, some t =>
                 some ((va * 4 + vb / 16) :: (vb % 16 * 16 + vc / 4) :: (vc % 4 * 64 + vd) :: t)
               | _, _ => none)
          | none => none)
     | _, _ => none)
  | _ => none

/-- `base64.StdEncoding.DecodeString`: carriage returns and newlines are
ignored, then the quads are decoded. -/
def base64Decode (s : List Char) : Option (List Nat) :=
  b64Quads (s.filter (fun c => !(c == Char.ofNat 13) && !(c == Char.ofNat 10)))

/-- Modelled from the spec: `ecdh.Unmarshal` (package `internal/ecdh`,
not in the sources) recognises a byte string as a curve point or rejects
it (§4.F: "failure … to recognise the public key as a valid curve
point").  The spec fixes no byte format, so the model accepts any
non-empty byte string and rejects the empty one; the claims settled here
do not depend on which non-empty strings are accepted. -/
def ecdhUnmarshal (bs : List Nat) : Option (List Nat) :=
  if bs = [] then none else some bs

/-! ## Client configuration: `State` and `ParseConfig` -/

/-- `State` (client config source, lines 28-47).  The clock function
`Now`, the key-pair cache and its lock are omitted: `ParseConfig` never
touches them, and no claim mentions them.  `staticPub` holds the bytes
accepted by `ecdhUnmarshal`, `none` while unset. -/
structure State where
  LocalHost : List Char
  LocalPort : List Char
  RemoteHost : List Char
  RemotePort : List Char
  sessionID : Nat
  UID : List Nat
  staticPub : Option (List Nat)
  ProxyMethod : List Char
  EncryptionMethod : Nat
  TicketTimeHint : Int
  ServerName : List Char
  BrowserSig : List Char
  NumConn : Int
deriving DecidableEq

/-- `InitState` (client config source, lines 49-59): the four endpoint
strings are set, everything else keeps its Go zero value. -/
def initState (lh lp rh rp : List Char) : State :=
  { LocalHost := lh
    LocalPort := lp
    RemoteHost := rh
    RemotePort := rp
    sessionID := 0
    UID := []
    staticPub := none
    ProxyMethod := []
    EncryptionMethod := 0
    TicketTimeHint := 0
    ServerName := []
    BrowserSig := []
    NumConn := 0 }

/-- Configuration errors of `ParseConfig`, one per `return` site. -/
inductive ConfErr where
  | missingFile
  | malformedJson
  | unknownEncryption
  | badUID
  | badPublicKeyFormat
  | badPublicKeyPoint
deriving DecidableEq

/-- The `switch preParse.EncryptionMethod` of `ParseConfig`
(lines 110-119): `plain` ↦ 0x00, `aes` ↦ 0x01, `chacha20-poly1305` ↦
0x02, anything else is the unknown-encryption error. -/
def encMethodByte (s : List Char) : Option Nat :=
  if s = "plain".data then some 0
  else if s = "aes".data then some 1
  else if s = "chacha20-poly1305".data then some 2
  else none

/-- Lines 110-142 of `ParseConfig`: the mutation of the receiver after a
successful `json.Unmarshal`.  The result is the error returned (if any)
together with the receiver's state at that return — the source mutates
`sta` in place, so a late failure leaves the earlier assignments visible.
Source order: the switch assigns `EncryptionMethod` (or returns), then
`ProxyMethod`, `ServerName`, `TicketTimeHint`, `BrowserSig`, `NumConn`
are assigned with no failure possible in between, then UID is base64
decoded and assigned, then the public key is base64 decoded and
unmarshalled. -/
def parseConfigFromRaw (sta : State) (r : rawConfig) : Except ConfErr Unit × State :=
  match encMethodByte r.EncryptionMethod with
  | none => (Except.error ConfErr.unknownEncryption, sta)
  | some b =>
    let sta1 : State :=
      { sta with
          EncryptionMethod := b
          ProxyMethod := r.ProxyMethod
          ServerName := r.ServerName
          TicketTimeHint := r.TicketTimeHint
          BrowserSig := r.BrowserSig
          NumConn := r.NumConn }
    match base64Decode r.UID with
    | none => (Except.error ConfErr.badUID, sta1)
    | some uid =>
      let sta2 : State := { sta1 with UID := uid }
      match base64Decode r.PublicKey with
      | none => (Except.error ConfErr.badPublicKeyFormat, sta2)
      | some pubBytes =>
        match ecdhUnmarshal pubBytes with
        | none => (Except.error ConfErr.badPublicKeyPoint, sta2)
        | some pub => (Except.ok (), { sta2 with staticPub := some pub })

/-- Unmarshal a content string and run the receiver mutation: the common
tail of both branches of `ParseConfig` (lines 104-143). -/
def parseJsonContent (sta : State) (content : List Char) : Except ConfErr Unit × State :=
  match jsonUnmarshal content with
  | none => (Except.error ConfErr.malformedJson, sta)
  | some r => parseConfigFromRaw sta r

/-- Outcome of a Go call that can panic. -/
inductive GoResult (α : Type) where
  | ok (val : α)
  | panicked
deriving DecidableEq

/-- `strings.Contains(s, c)` for a one-character substring. -/
def containsC (s : List Char) (c : Char) : Bool :=
  s.any (fun x => x == c)

/-- `State.ParseConfig` (client config source, lines 94-143).
`fs` embeds `ioutil.ReadFile`: `none` is a read error.  If the argument
contains both a `;` and a `=` it is converted by `ssvToJson` (which can
panic) and parsed; otherwise it is read as a file path and the contents
are parsed; a read error is returned as the missing-file error. -/
def parseConfig (fs : List Char → Option (List Char)) (sta : State) (conf : List Char) :
    GoResult (Except ConfErr Unit × State) :=
  if containsC conf ';' && containsC conf '=' then
    match ssvToJson conf with
    | none => GoResult.panicked
    | some content => GoResult.ok (parseJsonContent sta content)
  else
    match fs conf with
    | none => GoResult.ok (Except.error ConfErr.missingFile, sta)
    | some content => GoResult.ok (parseJsonContent sta content)

/-! ## Config-layer theorems -/

/-- A sample state used in concrete instances. -/
def stW : State :=
  initState "127.0.0.1".data "1984".data "example.com".data "443".data

/-- The single-line segment of claim C5: `Key=a\;b\=c\\d`. -/
def c5Input : List Char :=
  "Key=a".data ++ [bsC, ';'] ++ "b".data ++ [bsC, '='] ++ "c".data ++ [bsC, bsC] ++ "d".data

/-- What the code produces for `c5Input`: the JSON text of the two pairs
`Key` to `a` and `b` to `c\d`. -/
def c5Output : List Char :=
  [obC, qC, 'K', 'e', 'y', qC, ':', qC, 'a', qC, ',',
   qC, 'b', qC, ':', qC, 'c', bsC, 'd', qC, cbC]

/-- What the claim expects for `c5Input`: the JSON text of the single
pair `Key` to `a;b=c\d`. -/
def c5Claimed : List Char :=
  [obC, qC, 'K', 'e', 'y', qC, ':', qC, 'a', ';', 'b', '=', 'c', bsC, 'd', qC, cbC]

/-- C5: the claim (spec scenario S7) says the segment `Key=a\;b\=c\\d`
decodes to the single value `a;b=c\d` under key `Key`.  The code
unescapes the WHOLE line before splitting on `;` and `=`, so the escaped
separators do act as separators: the line splits into `Key=a` and
`b=c\d`, and the value bound to `Key` is just `a`. -/
theorem c5_escape_splits :
    splitOnC ';' (unescape c5Input) = ["Key=a".data, "b=c".data ++ [bsC, 'd']] ∧
    ssvToJson c5Input = some c5Output ∧
    ssvToJson c5Input ≠ some c5Claimed := by
  refine ⟨by decide, by decide, by decide⟩

/-- C7: the `EncryptionMethod` switch of `ParseConfig` maps `plain`,
`aes`, `chacha20-poly1305` to the bytes 0x00, 0x01, 0x02, fails with the
unknown-encryption error on every other string (leaving the state
untouched), and on success the mapped byte is the `EncryptionMethod` of
the resulting state whatever happens later. -/
theorem c7_encryption_mapping :
    encMethodByte "plain".data = some 0x00 ∧
    encMethodByte "aes".data = some 0x01 ∧
    encMethodByte "chacha20-poly1305".data = some 0x02 ∧
    (∀ s : List Char, s ≠ "plain".data → s ≠ "aes".data → s ≠ "chacha20-poly1305".data →
        encMethodByte s = none) ∧
    (∀ (sta : State) (r : rawConfig), encMethodByte r.EncryptionMethod = none →
        parseConfigFromRaw sta r = (Except.error ConfErr.unknownEncryption, sta)) ∧
    (∀ (sta : State) (r : rawConfig) (b : Nat), encMethodByte r.EncryptionMethod = some b →
        (parseConfigFromRaw sta r).2.EncryptionMethod = b) := by
  refine ⟨rfl, rfl, rfl, ?_, ?_, ?_⟩
  · intro s h1 h2 h3
    simp [encMethodByte, h1, h2, h3]
  · intro sta r h
    unfold parseConfigFromRaw
    rw [h]
  · intro sta r b h
    unfold parseConfigFromRaw
    rw [h]
    dsimp only
    cases hU : base64Decode r.UID with
    | none => rfl
    | some uid =>
      dsimp only
      cases hP : base64Decode r.PublicKey with
      | none => rfl
      | some pb =>
        dsimp only
        cases hE : ecdhUnmarshal pb with
        | none => rfl
        | some pub => rfl

/-- A config whose encryption method is the unknown name `blowfish`. -/
def rBlowfish : rawConfig := { rawConfigZero with EncryptionMethod := "blowfish".data }

/-- A config with the known encryption method `plain`. -/
def rPlainCfg : rawConfig := { rawConfigZero with EncryptionMethod := "plain".data }

theorem c7_encryption_mapping_witness :
    encMethodByte "blowfish".data = none ∧
    parseConfigFromRaw stW rBlowfish = (Except.error ConfErr.unknownEncryption, stW) ∧
    (parseConfigFromRaw stW rPlainCfg).2.EncryptionMethod = 0x00 :=
  ⟨c7_encryption_mapping.2.2.2.1 "blowfish".data (by decide) (by decide) (by decide),
   c7_encryption_mapping.2.2.2.2.1 stW rBlowfish rfl,
   c7_encryption_mapping.2.2.2.2.2 stW rPlainCfg 0x00 rfl⟩

/-- C9: `ParseConfig` is not atomic on error.  If it fails on the UID
base64 decode, the six fields `EncryptionMethod`, `ProxyMethod`,
`ServerName`, `TicketTimeHint`, `BrowserSig`, `NumConn` already hold the
new config's values (UID and the public key are untouched); if it fails
on the public-key decode or unmarshal, additionally `UID` holds the new
value; and if it fails earlier — unreadable file, JSON unmarshal error,
or unknown encryption method — the state is returned exactly as it
was. -/
theorem c9_parseConfig_atomicity :
    (∀ (fs : List Char → Option (List Char)) (sta : State) (conf : List Char),
        (containsC conf ';' && containsC conf '=') = false → fs conf = none →
        parseConfig fs sta conf = GoResult.ok (Except.error ConfErr.missingFile, sta)) ∧
    (∀ (sta : State) (content : List Char), jsonUnmarshal content = none →
        parseJsonContent sta content = (Except.error ConfErr.malformedJson, sta)) ∧
    (∀ (sta : State) (r : rawConfig), encMethodByte r.EncryptionMethod = none →
        parseConfigFromRaw sta r = (Except.error ConfErr.unknownEncryption, sta)) ∧
    (∀ (sta : State) (r : rawConfig) (b : Nat),
        encMethodByte r.EncryptionMethod = some b → base64Decode r.UID = none →
        parseConfigFromRaw sta r =
          (Except.error ConfErr.badUID,
           { sta with
               EncryptionMethod := b
               ProxyMethod := r.ProxyMethod
               ServerName := r.ServerName
               TicketTimeHint := r.TicketTimeHint
               BrowserSig := r.BrowserSig
               NumConn := r.NumConn })) ∧
    (∀ (sta : State) (r : rawConfig) (b : Nat) (uid : List Nat),
        encMethodByte r.EncryptionMethod = some b → base64Decode r.UID = some uid →
        base64Decode r.PublicKey = none →
        parseConfigFromRaw sta r =
          (Except.error ConfErr.badPublicKeyFormat,
           { sta with
               EncryptionMethod := b
               ProxyMethod := r.ProxyMethod
               ServerName := r.ServerName
               TicketTimeHint := r.TicketTimeHint
               BrowserSig := r.BrowserSig
               NumConn := r.NumConn
               UID := uid })) ∧
    (∀ (sta : State) (r : rawConfig) (b : Nat) (uid pb : List Nat),
        encMethodByte r.EncryptionMethod = some b → base64Decode r.UID = some uid →
        base64Decode r.PublicKey = some pb → ecdhUnmarshal pb = none →
        parseConfigFromRaw sta r =
          (Except.error ConfErr.badPublicKeyPoint,
           { sta with
               EncryptionMethod := b
               ProxyMethod := r.ProxyMethod
               ServerName := r.ServerName
               TicketTimeHint := r.TicketTimeHint
               BrowserSig := r.BrowserSig
               NumConn := r.NumConn
               UID := uid })) := by
  refine ⟨?_, ?_, ?_, ?_, ?_, ?_⟩
  · intro fs sta conf h1 h2
    unfold parseConfig
    rw [h1]
    show (match fs conf with
          | none => GoResult.ok (Except.error ConfErr.missingFile, sta)
          | some content => GoResult.ok (parseJsonContent sta content)) = _
    rw [h2]
  · intro sta content h
    unfold parseJsonContent
    rw [h]
  · intro sta r h
    unfold parseConfigFromRaw
    rw [h]
  · intro sta r b h1 h2
    unfold parseConfigFromRaw
    rw [h1]
    show (match base64Decode r.UID with
          | none => _
          | some uid => _) = _
    rw [h2]
  · intro sta r b uid h1 h2 h3
    unfold parseConfigFromRaw
    rw [h1]
    show (match base64Decode r.UID with
          | none => _
          | some uid => _) = _
    rw [h2]
    show (match base64Decode r.PublicKey with
          | none => _
          | some pb => _) = _
    rw [h3]
  · intro sta r b uid pb h1 h2 h3 h4
    unfold parseConfigFromRaw
    rw [h1]
    show (match base64Decode r.UID with
          | none => _
          | some uid => _) = _
    rw [h2]
    show (match base64Decode r.PublicKey with
          | none => _
          | some pb => _) = _
    rw [h3]
    show (match ecdhUnmarshal pb with
          | none => _
          | some pub => _) = _
    rw [h4]

/-- A config that fails at the UID decode: known encryption, UID not
valid base64. -/
def rBadUID : rawConfig :=
  { rawConfigZero with
      EncryptionMethod := "plain".data
      ProxyMethod := "shadowsocks".data
      ServerName := "www.example.com".data
      TicketTimeHint := 3600
      BrowserSig := "chrome".data
      NumConn := 4
      UID := "!".data }

theorem c9_parseConfig_atomicity_witness :
    parseConfig (fun _ => none) stW "conf.json".data
      = GoResult.ok (Except.error ConfErr.missingFile, stW) ∧
    parseJsonContent stW "]".data = (Except.error ConfErr.malformedJson, stW) ∧
    parseConfigFromRaw stW rBadUID =
      (Except.error ConfErr.badUID,
       { stW with
           EncryptionMethod := 0
           ProxyMethod := "shadowsocks".data
           ServerName := "www.example.com".data
           TicketTimeHint := 3600
           BrowserSig := "chrome".data
           NumConn := 4 }) :=
  ⟨c9_parseConfig_atomicity.1 (fun _ => none) stW "conf.json".data (by decide) rfl,
   c9_parseConfig_atomicity.2.1 stW "]".data rfl,
   c9_parseConfig_atomicity.2.2.2.1 stW rBadUID 0 rfl rfl⟩

/-- C10: `ParseConfig` takes the inline single-line branch exactly when
its argument contains at least one `;` and at least one `=`; otherwise
the argument is read as a file path. -/
theorem c10_branch_selection (fs : List Char → Option (List Char)) (sta : State)
    (conf : List Char) :
    (containsC conf ';' = true → containsC conf '=' = true →
      parseConfig fs sta conf =
        match ssvToJson conf with
        | none => GoResult.panicked
        | some content => GoResult.ok (parseJsonContent sta content)) ∧
    (containsC conf ';' = false ∨ containsC conf '=' = false →
      parseConfig fs sta conf =
        match fs conf with
        | none => GoResult.ok (Except.error ConfErr.missingFile, sta)
        | some content => GoResult.ok (parseJsonContent sta content)) := by
  constructor
  · intro h1 h2
    unfold parseConfig
    rw [h1, h2]
    rfl
  · intro h
    unfold parseConfig
    rcases h with h | h <;> rw [h] <;> simp

theorem c10_branch_selection_witness :
    parseConfig (fun _ => none) stW "EncryptionMethod=plain".data
      = GoResult.ok (Except.error ConfErr.missingFile, stW) ∧
    parseConfig (fun _ => some [obC, cbC]) stW "/etc/conf=1;2".data = GoResult.panicked := by
  constructor
  · have h := (c10_branch_selection (fun _ => none) stW "EncryptionMethod=plain".data).2
      (Or.inl (by decide))
    rw [h]
  · have h := (c10_branch_selection (fun _ => some [obC, cbC]) stW "/etc/conf=1;2".data).1
      (by decide) (by decide)
    rw [h]
    rfl

/-! ## C4: equivalence of the single-line and JSON configuration forms -/

/-- Join segments with `;` separators (no trailing separator). -/
def joinSemi : List (List Char) → List Char
  | [] => []
  | [a] => a
  | a :: b :: rest => a ++ ';' :: joinSemi (b :: rest)

/-- Join entries with `,` separators (no trailing separator). -/
def joinComma : List (List Char) → List Char
  | [] => []
  | [a] => a
  | a :: b :: rest => a ++ ',' :: joinComma (b :: rest)

/-- Each entry followed by a comma, concatenated. -/
def catComma : List (List Char) → List Char
  | [] => []
  | e :: rest => (e ++ [',']) ++ catComma rest

/-- The single-line segment of one key-value pair: `key=value`. -/
def segOf (p : List Char × List Char) : List Char :=
  p.1 ++ '=' :: p.2

/-- The single-line form of a pair list: segments joined by `;`. -/
def pairsLine (ps : List (List Char × List Char)) : List Char :=
  joinSemi (ps.map segOf)

/-- One JSON member, `"key":"value"` when quoted and `"key":value`
otherwise. -/
def jsonEntry (k v : List Char) (quoted : Bool) : List Char :=
  if quoted then qC :: (k ++ (qC :: ':' :: qC :: (v ++ [qC])))
  else qC :: (k ++ (qC :: ':' :: v))

/-- The JSON member a pair is emitted as: unquoted value for the keys
`TicketTimeHint` and `NumConn`, quoted for every other key. -/
def jsonEntryOf (k v : List Char) : List Char :=
  if k = "TicketTimeHint".data ∨ k = "NumConn".data then jsonEntry k v false
  else jsonEntry k v true

def entriesOf (ps : List (List Char × List Char)) : List (List Char) :=
  ps.map (fun p => jsonEntryOf p.1 p.2)

/-- Admissibility of one pair: the key is free of backslash, `;` and `=`;
the value is free of backslash and `;` (a `=` inside a value is harmless,
since `SplitN(ln, "=", 2)` splits at the first `=` only). -/
def goodPair (p : List Char × List Char) : Prop :=
  (∀ c ∈ p.1, c ≠ bsC ∧ c ≠ ';' ∧ c ≠ '=') ∧
  (∀ c ∈ p.2, c ≠ bsC ∧ c ≠ ';')

/-- Admissibility of a configuration value (claim C4): free of backslash,
`;` and the double quote, so that the value needs no escaping in either
configuration form. -/
def goodStr (s : List Char) : Prop :=
  ∀ c ∈ s, c ≠ bsC ∧ c ≠ ';' ∧ c ≠ qC

theorem replaceAll2_id (o1 o2 : Char) (new : List Char) :
    ∀ s : List Char, (∀ c ∈ s, c ≠ o1) → replaceAll2 o1 o2 new s = s
  | [], _ => rfl
  | [_], _ => rfl
  | c1 :: c2 :: rest, h => by
    rw [replaceAll2]
    rw [if_neg (fun hc => (h c1 (by simp)) hc.1)]
    rw [replaceAll2_id o1 o2 new (c2 :: rest) (fun c hc => h c (List.mem_cons_of_mem _ hc))]

theorem unescape_id (s : List Char) (h : ∀ c ∈ s, c ≠ bsC) : unescape s = s := by
  unfold unescape
  rw [replaceAll2_id _ _ _ s h, replaceAll2_id _ _ _ s h, replaceAll2_id _ _ _ s h]

theorem splitOnC_single (sep : Char) :
    ∀ a : List Char, (∀ c ∈ a, c ≠ sep) → splitOnC sep a = [a]
  | [], _ => rfl
  | c :: rest, h => by
    rw [splitOnC]
    rw [if_neg (h c (by simp))]
    rw [splitOnC_single sep rest (fun x hx => h x (List.mem_cons_of_mem _ hx))]

theorem splitOnC_append (sep : Char) :
    ∀ (a rest : List Char), (∀ c ∈ a, c ≠ sep) →
      splitOnC sep (a ++ sep :: rest) = a :: splitOnC sep rest
  | [], rest, _ => by
    show splitOnC sep (sep :: rest) = [] :: splitOnC sep rest
    rw [splitOnC, if_pos rfl]
  | c :: a2, rest, h => by
    show splitOnC sep (c :: (a2 ++ sep :: rest)) = _
    rw [splitOnC]
    rw [if_neg (h c (by simp))]
    rw [splitOnC_append sep a2 rest (fun x hx => h x (List.mem_cons_of_mem _ hx))]

theorem joinSemi_split :
    ∀ segs : List (List Char), segs ≠ [] →
      (∀ seg ∈ segs, ∀ c ∈ seg, c ≠ ';') →
      splitOnC ';' (joinSemi segs) = segs
  | [], h, _ => absurd rfl h
  | [a], _, hs => by
    rw [joinSemi]
    exact splitOnC_single ';' a (hs a (by simp))
  | a :: b :: rest, _, hs => by
    rw [joinSemi]
    rw [splitOnC_append ';' a (joinSemi (b :: rest)) (hs a (by simp))]
    rw [joinSemi_split (b :: rest) (by simp)
        (fun seg hseg => hs seg (List.mem_cons_of_mem _ hseg))]

theorem splitN2_key :
    ∀ (k v : List Char), (∀ c ∈ k, c ≠ '=') →
      splitN2 '=' (k ++ '=' :: v) = some (k, v)
  | [], v, _ => by
    show splitN2 '=' ('=' :: v) = _
    rw [splitN2, if_pos rfl]
  | c :: k2, v, h => by
    show splitN2 '=' (c :: (k2 ++ '=' :: v)) = _
    rw [splitN2]
    rw [if_neg (h c (by simp))]
    rw [splitN2_key k2 v (fun x hx => h x (List.mem_cons_of_mem _ hx))]

theorem ssvSegJson_eq (k v : List Char) (h : ∀ c ∈ k, c ≠ '=') :
    ssvSegJson (k ++ '=' :: v) = some (jsonEntryOf k v ++ [',']) := by
  unfold ssvSegJson
  rw [splitN2_key k v h]
  dsimp only
  by_cases hk : k = "TicketTimeHint".data ∨ k = "NumConn".data
  · rw [if_pos hk]
    unfold jsonEntryOf jsonEntry
    rw [if_pos hk, if_neg (by simp)]
    simp [List.append_assoc]
  · rw [if_neg hk]
    unfold jsonEntryOf jsonEntry
    rw [if_neg hk, if_pos rfl]
    simp [List.append_assoc]

theorem ssvLoop_eq :
    ∀ ps : List (List Char × List Char),
      (∀ p ∈ ps, ∀ c ∈ p.1, c ≠ '=') →
      ssvLoop (ps.map segOf) = some (catComma (entriesOf ps))
  | [], _ => rfl
  | p :: rest, h => by
    show ssvLoop (segOf p :: rest.map segOf) = _
    rw [ssvLoop]
    have hne : ¬ (segOf p = []) := by
      cases hp : p.1 <;> simp [segOf, hp]
    rw [if_neg hne]
    rw [show segOf p = p.1 ++ '=' :: p.2 from rfl]
    rw [ssvSegJson_eq p.1 p.2 (h p (by simp))]
    rw [ssvLoop_eq rest (fun q hq => h q (List.mem_cons_of_mem _ hq))]
    rfl

theorem dropLast_catComma :
    ∀ es : List (List Char), es ≠ [] → (catComma es).dropLast = joinComma es
  | [], h => absurd rfl h
  | [e], _ => by
    show ((e ++ [',']) ++ catComma []).dropLast = joinComma [e]
    rw [catComma, List.append_nil, List.dropLast_concat, joinComma]
  | e :: f :: rest, _ => by
    show ((e ++ [',']) ++ catComma (f :: rest)).dropLast = joinComma (e :: f :: rest)
    have hne : catComma (f :: rest) ≠ [] := by simp [catComma]
    rw [List.dropLast_append_of_ne_nil (e ++ [',']) hne]
    rw [dropLast_catComma (f :: rest) (by simp)]
    rw [joinComma]
    simp [List.append_assoc]

theorem mem_joinSemi (c : Char) :
    ∀ segs : List (List Char), c ∈ joinSemi segs →
      (∃ seg, seg ∈ segs ∧ c ∈ seg) ∨ c = ';'
  | [], h => absurd h (List.not_mem_nil c)
  | [a], h => Or.inl ⟨a, by simp, by rw [joinSemi] at h; exact h⟩
  | a :: b :: rest, h => by
    rw [joinSemi] at h
    rcases List.mem_append.mp h with h1 | h2
    · exact Or.inl ⟨a, by simp, h1⟩
    · rcases List.mem_cons.mp h2 with h3 | h4
      · exact Or.inr h3
      · rcases mem_joinSemi c (b :: rest) h4 with ⟨seg, hs, hc⟩ | he
        · exact Or.inl ⟨seg, List.mem_cons_of_mem _ hs, hc⟩
        · exact Or.inr he

theorem mem_segOf {c : Char} {p : List Char × List Char} (h : c ∈ segOf p) :
    c ∈ p.1 ∨ c = '=' ∨ c ∈ p.2 := by
  unfold segOf at h
  rcases List.mem_append.mp h with h1 | h2
  · exact Or.inl h1
  · rcases List.mem_cons.mp h2 with h3 | h4
    · exact Or.inr (Or.inl h3)
    · exact Or.inr (Or.inr h4)

/-- The single-line form of admissible pairs contains no backslash. -/
theorem pairsLine_no_backslash (ps : List (List Char × List Char))
    (hgood : ∀ p ∈ ps, goodPair p) : ∀ c ∈ pairsLine ps, c ≠ bsC := by
  intro c hc
  rcases mem_joinSemi c (ps.map segOf) hc with ⟨seg, hseg, hcs⟩ | hsemi
  · rcases List.mem_map.mp hseg with ⟨p, hp, rfl⟩
    rcases mem_segOf hcs with h1 | h2 | h3
    · exact ((hgood p hp).1 c h1).1
    · rw [h2]; decide
    · exact ((hgood p hp).2 c h3).1
  · rw [hsemi]; decide

/-- The segments of admissible pairs contain no `;`. -/
theorem segOf_no_semi (ps : List (List Char × List Char))
    (hgood : ∀ p ∈ ps, goodPair p) :
    ∀ seg ∈ ps.map segOf, ∀ c ∈ seg, c ≠ ';' := by
  intro seg hseg c hcs
  rcases List.mem_map.mp hseg with ⟨p, hp, rfl⟩
  rcases mem_segOf hcs with h1 | h2 | h3
  · exact ((hgood p hp).1 c h1).2.1
  · rw [h2]; decide
  · exact ((hgood p hp).2 c h3).2

/-- `ssvToJson` of the single-line form of a non-empty admissible pair
list is exactly the canonical flat JSON document of those pairs. -/
theorem ssvToJson_pairs (ps : List (List Char × List Char)) (hne : ps ≠ [])
    (hgood : ∀ p ∈ ps, goodPair p) :
    ssvToJson (pairsLine ps) = some (obC :: (joinComma (entriesOf ps) ++ [cbC])) := by
  unfold ssvToJson
  rw [show unescape (pairsLine ps) = pairsLine ps from
      unescape_id _ (pairsLine_no_backslash ps hgood)]
  unfold pairsLine
  rw [joinSemi_split (ps.map segOf) (by simpa using hne) (segOf_no_semi ps hgood)]
  rw [ssvLoop_eq ps (fun p hp c hc => ((hgood p hp).1 c hc).2.2)]
  have hcne : catComma (entriesOf ps) ≠ [] := by
    cases ps with
    | nil => exact absurd rfl hne
    | cons p rest => simp [entriesOf, catComma]
  show some ((obC :: catComma (entriesOf ps)).dropLast ++ [cbC]) = _
  rw [show obC :: catComma (entriesOf ps) = [obC] ++ catComma (entriesOf ps) from rfl]
  rw [List.dropLast_append_of_ne_nil [obC] hcne]
  rw [dropLast_catComma (entriesOf ps) (fun he => hcne (by rw [he]; rfl))]
  rfl

/-- The eight configuration fields as key-value pairs, in the order of
the spec's scenario S1. -/
def cfgPairs (sn pm em uid pk bsig tth nc : List Char) : List (List Char × List Char) :=
  [("ServerName".data, sn), ("ProxyMethod".data, pm), ("EncryptionMethod".data, em),
   ("UID".data, uid), ("PublicKey".data, pk), ("TicketTimeHint".data, tth),
   ("BrowserSig".data, bsig), ("NumConn".data, nc)]

/-- The single-line configuration form of the eight fields. -/
def ssvLineOf (sn pm em uid pk bsig tth nc : List Char) : List Char :=
  pairsLine (cfgPairs sn pm em uid pk bsig tth nc)

/-- The equivalent JSON document, written from the spec's words (§6 and
scenario S1): a flat object with every value quoted except
`TicketTimeHint` and `NumConn`. -/
def jsonDocOf (sn pm em uid pk bsig tth nc : List Char) : List Char :=
  obC :: (joinComma
    [jsonEntry "ServerName".data sn true,
     jsonEntry "ProxyMethod".data pm true,
     jsonEntry "EncryptionMethod".data em true,
     jsonEntry "UID".data uid true,
     jsonEntry "PublicKey".data pk true,
     jsonEntry "TicketTimeHint".data tth false,
     jsonEntry "BrowserSig".data bsig true,
     jsonEntry "NumConn".data nc false] ++ [cbC])

theorem containsC_of_mem {s : List Char} {c : Char} (h : c ∈ s) : containsC s c = true := by
  unfold containsC
  exact List.any_eq_true.mpr ⟨c, h, by simp⟩

/-- C4: for every admissible configuration (values free of backslash,
`;` and the double quote), `ssvToJson` turns the single-line form into
exactly the equivalent JSON document — `TicketTimeHint` and `NumConn`
unquoted, every other value quoted — and therefore `ParseConfig` on the
single-line form and `ParseConfig` on a file holding the equivalent JSON
document return identical results: the same error or the same
`ClientState` (same `ServerName`, `ProxyMethod`, `EncryptionMethod`
byte, UID bytes, public key, `TicketTimeHint`, `BrowserSig`,
`NumConn`). -/
theorem c4_config_equivalence
    (sn pm em uid pk bsig tth nc : List Char) (sta : State)
    (fs : List Char → Option (List Char)) (fname : List Char)
    (hsn : goodStr sn) (hpm : goodStr pm) (hem : goodStr em) (huid : goodStr uid)
    (hpk : goodStr pk) (hbsig : goodStr bsig) (htth : goodStr tth) (hnc : goodStr nc)
    (hf : containsC fname ';' = false ∨ containsC fname '=' = false)
    (hread : fs fname = some (jsonDocOf sn pm em uid pk bsig tth nc)) :
    ssvToJson (ssvLineOf sn pm em uid pk bsig tth nc)
      = some (jsonDocOf sn pm em uid pk bsig tth nc) ∧
    parseConfig fs sta (ssvLineOf sn pm em uid pk bsig tth nc)
      = parseConfig fs sta fname := by
  have hgp : ∀ s : List Char, goodStr s → ∀ c ∈ s, c ≠ bsC ∧ c ≠ ';' :=
    fun s hs c hc => ⟨(hs c hc).1, (hs c hc).2.1⟩
  have hgood : ∀ p ∈ cfgPairs sn pm em uid pk bsig tth nc, goodPair p := by
    intro p hp
    simp only [cfgPairs, List.mem_cons, List.not_mem_nil, or_false] at hp
    have hkey : ∀ k ∈ ["ServerName".data, "ProxyMethod".data, "EncryptionMethod".data,
        "UID".data, "PublicKey".data, "TicketTimeHint".data, "BrowserSig".data,
        "NumConn".data], ∀ c ∈ k, c ≠ bsC ∧ c ≠ ';' ∧ c ≠ '=' := by decide
    rcases hp with rfl | rfl | rfl | rfl | rfl | rfl | rfl | rfl
    · exact ⟨hkey _ (by simp), hgp sn hsn⟩
    · exact ⟨hkey _ (by simp), hgp pm hpm⟩
    · exact ⟨hkey _ (by simp), hgp em hem⟩
    · exact ⟨hkey _ (by simp), hgp uid huid⟩
    · exact ⟨hkey _ (by simp), hgp pk hpk⟩
    · exact ⟨hkey _ (by simp), hgp tth htth⟩
    · exact ⟨hkey _ (by simp), hgp bsig hbsig⟩
    · exact ⟨hkey _ (by simp), hgp nc hnc⟩
  have h1 : ssvToJson (ssvLineOf sn pm em uid pk bsig tth nc)
      = some (jsonDocOf sn pm em uid pk bsig tth nc) := by
    have hp := ssvToJson_pairs (cfgPairs sn pm em uid pk bsig tth nc)
      (by simp [cfgPairs]) hgood
    rw [show pairsLine (cfgPairs sn pm em uid pk bsig tth nc)
        = ssvLineOf sn pm em uid pk bsig tth nc from rfl] at hp
    rw [hp]
    rfl
  refine ⟨h1, ?_⟩
  have hm1 : containsC (ssvLineOf sn pm em uid pk bsig tth nc) ';' = true := by
    apply containsC_of_mem
    show ';' ∈ segOf ("ServerName".data, sn) ++ ';' ::
      joinSemi (List.map segOf (cfgPairs sn pm em uid pk bsig tth nc).tail)
    exact List.mem_append_right _ (List.mem_cons_self _ _)
  have hm2 : containsC (ssvLineOf sn pm em uid pk bsig tth nc) '=' = true := by
    apply containsC_of_mem
    show '=' ∈ ("ServerName".data ++ '=' :: sn) ++ ';' ::
      joinSemi (List.map segOf (cfgPairs sn pm em uid pk bsig tth nc).tail)
    exact List.mem_append_left _ (List.mem_append_right _ (List.mem_cons_self _ _))
  have hcond : (containsC fname ';' && containsC fname '=') = false := by
    rcases hf with h | h
    · rw [h, Bool.false_and]
    · rw [h, Bool.and_false]
  unfold parseConfig
  rw [hm1, hm2, h1, hcond, hread]
  rfl

theorem c4_config_equivalence_witness :
    ssvToJson (ssvLineOf "www.example.com".data "shadowsocks".data "aes".data
        "AAAAAAAAAAAAAAAAAAAAAA==".data "AAAA".data "chrome".data "3600".data "4".data)
      = some (jsonDocOf "www.example.com".data "shadowsocks".data "aes".data
        "AAAAAAAAAAAAAAAAAAAAAA==".data "AAAA".data "chrome".data "3600".data "4".data) ∧
    parseConfig
      (fun p => if p = "config.json".data then
        some (jsonDocOf "www.example.com".data "shadowsocks".data "aes".data
          "AAAAAAAAAAAAAAAAAAAAAA==".data "AAAA".data "chrome".data "3600".data "4".data)
       else none)
      stW
      (ssvLineOf "www.example.com".data "shadowsocks".data "aes".data
        "AAAAAAAAAAAAAAAAAAAAAA==".data "AAAA".data "chrome".data "3600".data "4".data)
      = parseConfig
      (fun p => if p = "config.json".data then
        some (jsonDocOf "www.example.com".data "shadowsocks".data "aes".data
          "AAAAAAAAAAAAAAAAAAAAAA==".data "AAAA".data "chrome".data "3600".data "4".data)
       else none)
      stW "config.json".data :=
  c4_config_equivalence
    "www.example.com".data "shadowsocks".data "aes".data
    "AAAAAAAAAAAAAAAAAAAAAA==".data "AAAA".data "chrome".data "3600".data "4".data
    stW _ "config.json".data
    (by unfold goodStr; decide) (by unfold goodStr; decide)
    (by unfold goodStr; decide) (by unfold goodStr; decide)
    (by unfold goodStr; decide) (by unfold goodStr; decide)
    (by unfold goodStr; decide) (by unfold goodStr; decide)
    (Or.inl (by decide))
    (by rw [if_pos rfl])

/-- Sanity of the embedded collaborators on the spec's scenario S1: the
canonical JSON document parses end to end, setting the encryption byte to
0x01 (`aes`), the UID to sixteen zero bytes, and the numeric fields to
3600 and 4. -/
theorem jsonDoc_s1_parses :
    (parseJsonContent stW (jsonDocOf "www.example.com".data "shadowsocks".data "aes".data
        "AAAAAAAAAAAAAAAAAAAAAA==".data "AAAA".data "chrome".data "3600".data "4".data)).1
      = Except.ok () ∧
    (parseJsonContent stW (jsonDocOf "www.example.com".data "shadowsocks".data "aes".data
        "AAAAAAAAAAAAAAAAAAAAAA==".data "AAAA".data "chrome".data "3600".data "4".data)).2
      = { stW with
            ServerName := "www.example.com".data
            ProxyMethod := "shadowsocks".data
            EncryptionMethod := 0x01
            UID := List.replicate 16 0
            staticPub := some [0, 0, 0]
            TicketTimeHint := 3600
            BrowserSig := "chrome".data
            NumConn := 4 } := by
  constructor
  · set_option maxRecDepth 100000 in rfl
  · set_option maxRecDepth 100000 in rfl

end Cloak
